import Mathlib

/-!
Verification of the alkaid CSV parsing module against its specification.

The definitions below are a shallow embedding of the C++ sources:
  * `src/alkaid/csv/defines.h`      — `ParseFlags`, `quote_escape_flag`, `CSV_NOT_FOUND`
  * `src/alkaid/csv/basic_parser.h` — `make_parse_flags`, `make_ws_flags`,
    `IBasicCSVParser::parse` / `push_field` / `push_row` / `end_feed`,
    `ThreadSafeDeque`, `StreamParser::next`
  * `src/alkaid/csv/format.h`       — `CSVFormat` and its setters
  * `src/alkaid/csv/col_names.h`    — `ColNames`
  * `src/alkaid/csv/stat.h`         — `CSVReader` (`read_row`, `begin`, `trim_header`,
    `index_of`), `internals::calculate_score`, `internals::_guess_format`

C++ `char` is signed on the target platform; bytes are modelled as the signed
values `-128 ≤ ch < 128`, and the 256-entry lookup tables index by `ch + 128`
exactly as the source does.  `CSVRow` / `CSVField` (field-value extraction)
live in `row.h`, which is not part of the sources; those definitions are
modelled from the spec and are marked as such.
-/

deriving instance DecidableEq for Except

namespace Alkaid

/-- `internals::ParseFlags` from `defines.h`. -/
inductive ParseFlags where
  | QUOTE_ESCAPE_QUOTE
  | QUOTE
  | NOT_SPECIAL
  | DELIMITER
  | NEWLINE
deriving DecidableEq, Repr

/-- Numeric values of the `ParseFlags` enumerators
(`QUOTE_ESCAPE_QUOTE = 0`, `QUOTE = 2|1`, `NOT_SPECIAL = 4`,
`DELIMITER = 4|2`, `NEWLINE = 4|2|1`). -/
def ParseFlags.val : ParseFlags → Nat
  | .QUOTE_ESCAPE_QUOTE => 0
  | .QUOTE => 3
  | .NOT_SPECIAL => 4
  | .DELIMITER => 6
  | .NEWLINE => 7

/-- `internals::quote_escape_flag`: `(ParseFlags)((int)flag & ~((int)QUOTE * quote_escape))`.
With `quote_escape` set this clears the low two bits, sending
`QUOTE ↦ QUOTE_ESCAPE_QUOTE`, `DELIMITER ↦ NOT_SPECIAL`, `NEWLINE ↦ NOT_SPECIAL`. -/
def quote_escape_flag (flag : ParseFlags) (quote_escape : Bool) : ParseFlags :=
  if quote_escape then
    match flag with
    | .QUOTE_ESCAPE_QUOTE => .QUOTE_ESCAPE_QUOTE
    | .QUOTE => .QUOTE_ESCAPE_QUOTE
    | .NOT_SPECIAL => .NOT_SPECIAL
    | .DELIMITER => .NOT_SPECIAL
    | .NEWLINE => .NOT_SPECIAL
  else flag

/-- `make_parse_flags(char delimiter)` from `basic_parser.h`: the loop body for
the slot of signed char `ch` (the table stores this at index `ch + 128`). -/
def make_parse_flags_entry (delimiter : Int) (ch : Int) : ParseFlags :=
  if ch = delimiter then .DELIMITER
  else if ch = 13 ∨ ch = 10 then .NEWLINE
  else .NOT_SPECIAL

/-- `make_parse_flags(char delimiter)`: the full 256-entry table, indexed by
`arr_idx = ch + 128` for `-128 ≤ ch < 128`. -/
def make_parse_flags (delimiter : Int) : Fin 256 → ParseFlags :=
  fun arr_idx => make_parse_flags_entry delimiter ((arr_idx : Int) - 128)

/-- `make_parse_flags(char delimiter, char quote_char)`: starts from
`make_parse_flags(delimiter)` and overwrites slot `(size_t)quote_char + 128`
with `QUOTE` (reduced mod 256; the source's store is out of bounds for a
negative `quote_char`). -/
def make_parse_flags2 (delimiter quote_char : Int) : Fin 256 → ParseFlags :=
  Function.update (make_parse_flags delimiter)
    ⟨(quote_char + 128).toNat % 256, by omega⟩ .QUOTE

/-- `make_ws_flags(const char *ws_chars, size_t n_chars)`: a byte is flagged
iff it occurs among the trim characters. -/
def make_ws_flags (ws_chars : List Char) : Char → Bool :=
  fun ch => ws_chars.any (fun w => w == ch)

/-- The signed value of a byte, as C++ `char` on the target platform:
code points below 128 are themselves, bytes `128 ≤ b < 256` are `b - 256`. -/
def toSigned (c : Char) : Int :=
  if c.toNat % 256 < 128 then ((c.toNat % 256 : Nat) : Int)
  else ((c.toNat % 256 : Nat) : Int) - 256

/-- The table slot `ch + 128` read by `IBasicCSVParser::parse_flag(ch)`. -/
def char_flag_index (c : Char) : Fin 256 :=
  ⟨(toSigned c + 128).toNat, by unfold toSigned; split <;> omega⟩

/-- `CSV_NOT_FOUND` from `defines.h`. -/
def CSV_NOT_FOUND : Int := -1

/-- `internals::UNINITIALIZED_FIELD` from `basic_parser.h`. -/
def UNINITIALIZED_FIELD : Int := -1

/-- `ITERATION_CHUNK_SIZE` from `defines.h` (10 MB). -/
def ITERATION_CHUNK_SIZE : Nat := 10000000

/-! ## `ColNames` (`col_names.h`)

`ColNames::set_col_names` fills `col_pos[name] = i` in index order, so for a
duplicated name the later assignment overwrites the earlier one; the map is
modelled as a function where the tail of the list takes precedence. -/

/-- The `col_pos` map built by the `set_col_names` loop, as a lookup function;
`build_col_pos names i q` is the entry for `q` after inserting
`names[0] ↦ i, names[1] ↦ i+1, …` into an empty map. -/
def build_col_pos : List String → Nat → String → Option Nat
  | [], _, _ => none
  | n :: rest, i, q =>
      match build_col_pos rest (i + 1) q with
      | some j => some j
      | none => if q = n then some i else none

/-- `struct ColNames` from `col_names.h`. -/
structure ColNames where
  col_names : List String
  col_pos : String → Option Nat

/-- `ColNames::set_col_names`. -/
def ColNames.set_col_names (cnames : List String) : ColNames :=
  { col_names := cnames, col_pos := build_col_pos cnames 0 }

/-- `ColNames::index_of`: map lookup, `CSV_NOT_FOUND` if absent. -/
def ColNames.index_of (c : ColNames) (col_name : String) : Int :=
  match c.col_pos col_name with
  | some pos => (pos : Int)
  | none => CSV_NOT_FOUND

/-- The linear scan of `CSVReader::index_of`: first match wins. -/
def reader_index_scan (col_name : String) : List String → Nat → Int
  | [], _ => CSV_NOT_FOUND
  | n :: rest, i => if n = col_name then (i : Int) else reader_index_scan col_name rest (i + 1)

/-- `CSVReader::index_of` (`stat.h`): first linear-scan match over the
column names, `CSV_NOT_FOUND` if absent. -/
def reader_index_of (col_names : List String) (col_name : String) : Int :=
  reader_index_scan col_name col_names 0

/-! ## `CSVFormat` (`format.h`) -/

/-- `VariableColumnPolicy` from `format.h` (`THROW = -1`, `IGNORE_ROW = 0`,
`KEEP = 1`). -/
inductive VariableColumnPolicy where
  | THROW
  | IGNORE_ROW
  | KEEP
deriving DecidableEq, Repr

/-- `class CSVFormat` from `format.h`, with its default member values. -/
structure CSVFormat where
  possible_delimiters : List Char := [',']
  trim_chars : List Char := []
  header : Int := 0
  no_quote : Bool := false
  quote_char : Char := '"'
  col_names : List String := []
  variable_column_policy : VariableColumnPolicy := .IGNORE_ROW
deriving DecidableEq, Repr

/-- The overlap test of `CSVFormat::assert_no_char_overlap`: the intersection
of delimiters and trim chars, with the quote char added when it occurs in
either set, is nonempty. -/
def CSVFormat.has_char_overlap (f : CSVFormat) : Bool :=
  f.possible_delimiters.any (fun c => f.trim_chars.contains c) ||
  f.possible_delimiters.contains f.quote_char ||
  f.trim_chars.contains f.quote_char

/-- Follows the claim's words: the quote character occurs in the set of
possible delimiters or in the set of trim characters, or the delimiter set
and the trim set intersect.  Compared against `has_char_overlap` below. -/
def char_overlap_prop (f : CSVFormat) : Prop :=
  f.quote_char ∈ f.possible_delimiters ∨ f.quote_char ∈ f.trim_chars ∨
  ∃ c ∈ f.possible_delimiters, c ∈ f.trim_chars

instance (f : CSVFormat) : Decidable (char_overlap_prop f) := by
  unfold char_overlap_prop
  infer_instance

/-- `CSVFormat::assert_no_char_overlap`: throws (the message lists the
offending characters; its text is not modelled) iff the overlap test holds. -/
def CSVFormat.assert_no_char_overlap (f : CSVFormat) : Except String CSVFormat :=
  if f.has_char_overlap then
    .error "There should be no overlap between the quote character, the set of possible delimiters and the set of whitespace characters."
  else .ok f

/-- `CSVFormat::delimiter(char)`: sets `possible_delimiters = {delim}`, then
asserts no char overlap. -/
def CSVFormat.delimiter (f : CSVFormat) (delim : Char) : Except String CSVFormat :=
  CSVFormat.assert_no_char_overlap { f with possible_delimiters := [delim] }

/-- `CSVFormat::delimiter(const std::vector<char>&)`. -/
def CSVFormat.delimiter_list (f : CSVFormat) (delim : List Char) : Except String CSVFormat :=
  CSVFormat.assert_no_char_overlap { f with possible_delimiters := delim }

/-- `CSVFormat::quote(char)`: enables quoting, sets the quote char, then
asserts no char overlap. -/
def CSVFormat.quote (f : CSVFormat) (q : Char) : Except String CSVFormat :=
  CSVFormat.assert_no_char_overlap { f with no_quote := false, quote_char := q }

/-- `CSVFormat::trim`. -/
def CSVFormat.trim (f : CSVFormat) (chars : List Char) : Except String CSVFormat :=
  CSVFormat.assert_no_char_overlap { f with trim_chars := chars }

/-- `CSVFormat::header_row(int)`: a negative row forces
`variable_column_policy = KEEP`; sets `header`, clears `col_names`. -/
def CSVFormat.header_row (f : CSVFormat) (row : Int) : CSVFormat :=
  let f := if row < 0 then { f with variable_column_policy := .KEEP } else f
  { f with header := row, col_names := [] }

/-- `CSVFormat::no_header()`: equivalent to `header_row(-1)`. -/
def CSVFormat.no_header (f : CSVFormat) : CSVFormat :=
  f.header_row (-1)

/-- `CSVFormat::get_delim` returns the sole possible delimiter (the model
ignores the more-than-one-delimiter error path, which cannot be reached
once a single delimiter is set). -/
def CSVFormat.get_delim (f : CSVFormat) : Char :=
  f.possible_delimiters.headD ','

/-- The parse-flag table built by `IBasicCSVParser`'s constructor from a
`CSVFormat`: quoting disabled uses `make_parse_flags(delim)`, otherwise
`make_parse_flags(delim, quote_char)`. -/
def CSVFormat.parse_flag_table (f : CSVFormat) : Fin 256 → ParseFlags :=
  if f.no_quote then make_parse_flags (toSigned f.get_delim)
  else make_parse_flags2 (toSigned f.get_delim) (toSigned f.quote_char)

/-- `IBasicCSVParser::parse_flag(ch)`: read the table at slot `ch + 128`. -/
def CSVFormat.parse_flag (f : CSVFormat) (c : Char) : ParseFlags :=
  f.parse_flag_table (char_flag_index c)

/-- `IBasicCSVParser::ws_flag(ch)` via `make_ws_flags(trim_chars)`. -/
def CSVFormat.ws_flag (f : CSVFormat) (c : Char) : Bool :=
  make_ws_flags f.trim_chars c

/-! ## The parser state machine (`IBasicCSVParser`, `basic_parser.h`)

The parser is modelled for a single chunk of data (the `StreamParser::next`
path when the whole source fits in one `ITERATION_CHUNK_SIZE` read, in which
case `no_chunk()` holds, `_eof` is set and `end_feed` runs).  Mutable parser
state becomes a `ParserState` record threaded through the loop.  Chunk bytes
are `List Char`; `input.getD pos` stands for `in[pos]`. -/

/-- `RawCSVField`: a field span recorded by `push_field` — offset from the
row's `data_start`, length, and the double-quote flag. -/
structure RawCSVField where
  start : Nat
  length : Nat
  has_double_quote : Bool
deriving DecidableEq, Repr

/-- The `CSVRow` bookkeeping data (`data_start`, `fields_start`, `row_length`)
referencing the chunk's shared field list. -/
structure CSVRowRec where
  data_start : Nat
  fields_start : Nat
  row_length : Nat
deriving DecidableEq, Repr

/-- The mutable state of `IBasicCSVParser` during `parse()`:
`data_pos`, `field_start` (with `UNINITIALIZED_FIELD = -1`), `field_length`,
`quote_escape`, `field_has_double_quote`, the current row's `data_start` and
`fields_start`, the chunk's field list and the records pushed so far. -/
structure ParserState where
  data_pos : Nat
  field_start : Int
  field_length : Nat
  quote_escape : Bool
  field_has_double_quote : Bool
  row_data_start : Nat
  row_fields_start : Nat
  fields : List RawCSVField
  records : List CSVRowRec
deriving DecidableEq, Repr

/-- State at the top of `parse()` for a fresh chunk: `current_row =
CSVRow(data_ptr)`, empty field list, `quote_escape = false`, `data_pos = 0`. -/
def ParserState.initial : ParserState :=
  { data_pos := 0, field_start := UNINITIALIZED_FIELD, field_length := 0,
    quote_escape := false, field_has_double_quote := false,
    row_data_start := 0, row_fields_start := 0, fields := [], records := [] }

/-- `IBasicCSVParser::push_field`: record the span (start `0` when the field
never started), reset the per-field state. -/
def push_field (st : ParserState) : ParserState :=
  let f : RawCSVField :=
    { start := if st.field_start = UNINITIALIZED_FIELD then 0 else st.field_start.toNat,
      length := st.field_length,
      has_double_quote := st.field_has_double_quote }
  { st with fields := st.fields ++ [f],
            field_start := UNINITIALIZED_FIELD,
            field_length := 0,
            field_has_double_quote := false }

/-- `IBasicCSVParser::push_row`: `row_length = fields.size() - fields_start`,
then the row is moved into the output collection. -/
def push_row (st : ParserState) : ParserState :=
  { st with records := st.records ++
      [{ data_start := st.row_data_start,
         fields_start := st.row_fields_start,
         row_length := st.fields.length - st.row_fields_start }] }

/-- The leading-whitespace loop of `parse_field`:
`while (data_pos < in.size() && ws_flag(in[data_pos])) data_pos++`.
The fuel argument (always called with `input.length + 1`, which exceeds the
remaining positions) makes the recursion structural. -/
def skip_ws (ws : Char → Bool) (input : List Char) : Nat → Nat → Nat
  | 0, pos => pos
  | fuel + 1, pos =>
    if pos < input.length then
      if ws (input.getD pos (Char.ofNat 0)) then skip_ws ws input fuel (pos + 1) else pos
    else pos

/-- The `NOT_SPECIAL` scan loop of `parse_field`:
`while (data_pos < in.size() && compound_parse_flag(in[data_pos]) == NOT_SPECIAL) data_pos++`
(fuel as in `skip_ws`). -/
def scan_not_special (flag : Char → ParseFlags) (qe : Bool) (input : List Char) :
    Nat → Nat → Nat
  | 0, pos => pos
  | fuel + 1, pos =>
    if pos < input.length then
      if quote_escape_flag (flag (input.getD pos (Char.ofNat 0))) qe = .NOT_SPECIAL then
        scan_not_special flag qe input fuel (pos + 1)
      else pos
    else pos

/-- The trailing-whitespace loop of `parse_field`:
`for (j = data_pos - 1; ws_flag(in[j]) && field_length > 0; j--) field_length--`,
structurally recursive on the remaining length. -/
def trim_trailing (ws : Char → Bool) (input : List Char) : Nat → Nat → Nat
  | _, 0 => 0
  | j, len + 1 =>
    if ws (input.getD j (Char.ofNat 0)) then trim_trailing ws input (j - 1) len
    else len + 1

/-- `IBasicCSVParser::parse_field`. -/
def parse_field (flag : Char → ParseFlags) (ws : Char → Bool) (input : List Char)
    (st : ParserState) : ParserState :=
  let pos1 := skip_ws ws input (input.length + 1) st.data_pos
  let fs : Int :=
    if st.field_start = UNINITIALIZED_FIELD then (pos1 : Int) - (st.row_data_start : Int)
    else st.field_start
  let pos2 := scan_not_special flag st.quote_escape input (input.length + 1) pos1
  let len := pos2 - (fs.toNat + st.row_data_start)
  let len' := trim_trailing ws input (pos2 - 1) len
  { st with data_pos := pos2, field_start := fs, field_length := len' }

/-- One iteration body plus loop of `IBasicCSVParser::parse()`'s
`while (data_pos < in.size())` switch.  `none` from the `QUOTE_ESCAPE_QUOTE`
arm models the early `return current_row_start()`.  Every arm that continues
advances `data_pos` by at least one, so fuel `input.length + 1` never runs
out on the loop's own account. -/
def parse_loop (flag : Char → ParseFlags) (ws : Char → Bool) (input : List Char) :
    Nat → ParserState → ParserState
  | 0, st => st
  | fuel + 1, st =>
    if st.data_pos < input.length then
      let c := input.getD st.data_pos (Char.ofNat 0)
      match quote_escape_flag (flag c) st.quote_escape with
      | .DELIMITER =>
          parse_loop flag ws input fuel { push_field st with data_pos := st.data_pos + 1 }
      | .NEWLINE =>
          -- catches CRLF (or LFLF)
          let pos1 := st.data_pos + 1
          let pos2 :=
            if pos1 < input.length ∧ flag (input.getD pos1 (Char.ofNat 0)) = .NEWLINE
            then pos1 + 1 else pos1
          let st1 := push_row (push_field { st with data_pos := pos2 })
          -- current_row = CSVRow(data_ptr, data_pos, fields->size())
          parse_loop flag ws input fuel
            { st1 with row_data_start := pos2, row_fields_start := st1.fields.length }
      | .NOT_SPECIAL =>
          parse_loop flag ws input fuel (parse_field flag ws input st)
      | .QUOTE_ESCAPE_QUOTE =>
          if st.data_pos + 1 = input.length then st  -- return current_row_start()
          else if st.data_pos + 1 < input.length then
            let next_ch := flag (input.getD (st.data_pos + 1) (Char.ofNat 0))
            if ParseFlags.DELIMITER.val ≤ next_ch.val then
              parse_loop flag ws input fuel
                { st with quote_escape := false, data_pos := st.data_pos + 1 }
            else if next_ch = .QUOTE then
              -- case: escaped quote
              parse_loop flag ws input fuel
                { st with data_pos := st.data_pos + 2,
                          field_length := st.field_length + 2,
                          field_has_double_quote := true }
            else
              -- case: unescaped single quote
              parse_loop flag ws input fuel
                { st with field_length := st.field_length + 1, data_pos := st.data_pos + 1 }
          else
            parse_loop flag ws input fuel
              { st with field_length := st.field_length + 1, data_pos := st.data_pos + 1 }
      | .QUOTE =>
          if st.field_length = 0 then
            let pos1 := st.data_pos + 1
            let fs : Int :=
              if st.field_start = UNINITIALIZED_FIELD ∧ pos1 < input.length ∧
                 ¬ ws (input.getD pos1 (Char.ofNat 0))
              then (pos1 : Int) - (st.row_data_start : Int)
              else st.field_start
            parse_loop flag ws input fuel
              { st with quote_escape := true, data_pos := pos1, field_start := fs }
          else
            -- case: unescaped quote
            parse_loop flag ws input fuel
              { st with field_length := st.field_length + 1, data_pos := st.data_pos + 1 }
    else st

/-- `trim_utf8_bom`: skip a leading `EF BB BF`. -/
def bom_offset (input : List Char) : Nat :=
  match input with
  | a :: b :: c :: _ =>
      if a = Char.ofNat 0xEF ∧ b = Char.ofNat 0xBB ∧ c = Char.ofNat 0xBF then 3 else 0
  | _ => 0

/-- `IBasicCSVParser::parse()` on a fresh chunk: reset `quote_escape`,
`data_pos`, `current_row_start`, trim the BOM, then run the loop. -/
def parse (flag : Char → ParseFlags) (ws : Char → Bool) (input : List Char) : ParserState :=
  parse_loop flag ws input (input.length + 1)
    { ParserState.initial with data_pos := bom_offset input }

/-- `IBasicCSVParser::end_feed`: push a pending field (also when the chunk
ends in a delimiter or quote), then push the current row if nonempty. -/
def end_feed (flag : Char → ParseFlags) (input : List Char) (st : ParserState) : ParserState :=
  let empty_last_field :=
    input ≠ [] ∧
      (flag (input.getLastD (Char.ofNat 0)) = .DELIMITER ∨
       flag (input.getLastD (Char.ofNat 0)) = .QUOTE)
  let st1 := if 0 < st.field_length ∨ empty_last_field then push_field st else st
  if 0 < st1.fields.length - st1.row_fields_start then push_row st1 else st1

/-- `StreamParser::next` for a source smaller than `ITERATION_CHUNK_SIZE`:
the single read consumes the whole source, `no_chunk()` holds, `_eof` is set
and `end_feed` runs. -/
def single_chunk_parse (flag : Char → ParseFlags) (ws : Char → Bool)
    (input : List Char) : ParserState :=
  end_feed flag input (parse flag ws input)

/-! ## Field values (`row.h`, not among the sources)

`CSVRow` / `CSVField` are declared in `row.h`, which is absent from the
sources; only the bookkeeping data the parser fills in is visible.  The
value-extraction definitions below are modelled from the spec. -/

/-- Modelled from the spec: missing `CSVRow::get_field` (`row.h`).  A row is
"a reference into a shared chunk buffer plus a list of (start, length) field
spans"; its `i`-th span is the chunk field list entry `fields_start + i`. -/
def get_field_span (fields : List RawCSVField) (row : CSVRowRec) (i : Nat) :
    Option RawCSVField :=
  if i < row.row_length then fields.get? (row.fields_start + i) else none

/-- Modelled from the spec: the raw bytes of a field span, read from the
chunk buffer at offset `data_start + start`. -/
def raw_field_chars (input : List Char) (row : CSVRowRec) (f : RawCSVField) : List Char :=
  (input.drop (row.data_start + f.start)).take f.length

/-- Modelled from the spec: missing doubled-quote unescaping (`row.h`).
"Doubled quotes inside quoted fields are unescaped lazily (flagged, not
materialized, until the field value is actually requested)": each pair of
consecutive quote characters collapses to one. -/
def unescape_doubled (q : Char) : List Char → List Char
  | [] => []
  | [c] => [c]
  | c1 :: c2 :: rest =>
      if c1 = q ∧ c2 = q then c1 :: unescape_doubled q rest
      else c1 :: unescape_doubled q (c2 :: rest)

/-- Modelled from the spec: the value of the `i`-th field of a row — the raw
span bytes, with doubled quotes collapsed exactly when the parser flagged the
field. -/
def field_value (q : Char) (input : List Char) (fields : List RawCSVField)
    (row : CSVRowRec) (i : Nat) : Option (List Char) :=
  (get_field_span fields row i).map (fun f =>
    let raw := raw_field_chars input row f
    if f.has_double_quote then unescape_doubled q raw else raw)

/-- Modelled from the spec: a row materialized as strings (the
`CSVRow → std::vector<std::string>` conversion used by `set_col_names`). -/
def row_values (q : Char) (input : List Char) (fields : List RawCSVField)
    (row : CSVRowRec) : List String :=
  (List.range row.row_length).map (fun i => String.mk ((field_value q input fields row i).getD []))

/-! ## `ThreadSafeDeque` (`basic_parser.h`) -/

/-- The observable state of `internals::ThreadSafeDeque`: element count,
the notify watermark (default 100) and the `_is_waitable` flag. -/
structure ThreadSafeDeque where
  size : Nat
  notify_size : Nat := 100
  is_waitable : Bool := false
deriving DecidableEq, Repr

/-- Whether `ThreadSafeDeque::wait()` blocks when no producer changes the
state: it returns at once unless `is_waitable`, and otherwise waits on the
predicate `size() >= _notify_size || !is_waitable()`. -/
def ThreadSafeDeque.wait_blocks (d : ThreadSafeDeque) : Bool :=
  if ¬ d.is_waitable then false
  else ¬ (d.notify_size ≤ d.size ∨ d.is_waitable = false)

/-- `ThreadSafeDeque::kill_all`: clear `_is_waitable`, wake all waiters. -/
def ThreadSafeDeque.kill_all (d : ThreadSafeDeque) : ThreadSafeDeque :=
  { d with is_waitable := false }

/-- `ThreadSafeDeque::notify_all`: set `_is_waitable`. -/
def ThreadSafeDeque.notify_all (d : ThreadSafeDeque) : ThreadSafeDeque :=
  { d with is_waitable := true }

/-! ## `CSVReader` (`stat.h`) -/

/-- The state of a `CSVReader` over an in-memory stream source whose size is
below `ITERATION_CHUNK_SIZE`, observed between reads (the worker thread is
joined, so `records` is the already-materialized queue and the deque's
`_is_waitable` flag is false). -/
structure CSVReaderModel where
  input : List Char
  format : CSVFormat
  eof : Bool
  records : List CSVRowRec
  fields : List RawCSVField
  col_names : List String
  n_cols : Nat
  header_trimmed : Bool
deriving DecidableEq, Repr

/-- `CSVReader::set_col_names`. -/
def CSVReaderModel.set_col_names (r : CSVReaderModel) (names : List String) : CSVReaderModel :=
  { r with col_names := names, n_cols := names.length }

/-- The loop of `CSVReader::trim_header`:
`for (i = 0; i <= header && !records->empty(); i++)` popping rows, setting the
column names (and with them `n_cols`, as `set_col_names` does) from the row
popped at `i == header` when none are set yet.  Returns the remaining queue,
the column names and `n_cols`. -/
def trim_header_loop (quote : Char) (input : List Char) (fields : List RawCSVField)
    (header : Int) : List CSVRowRec → Int → List String → Nat →
    List CSVRowRec × List String × Nat
  | [], _, names, n => ([], names, n)
  | row :: rest, i, names, n =>
      if i ≤ header then
        if i = header ∧ names = [] then
          let cnames := row_values quote input fields row
          trim_header_loop quote input fields header rest (i + 1) cnames cnames.length
        else trim_header_loop quote input fields header rest (i + 1) names n
      else (row :: rest, names, n)

/-- `CSVReader::trim_header`: run the loop once, then mark the header
trimmed. -/
def CSVReaderModel.trim_header (r : CSVReaderModel) : CSVReaderModel :=
  if ¬ r.header_trimmed then
    let t := trim_header_loop r.format.quote_char r.input r.fields r.format.header
      r.records 0 r.col_names r.n_cols
    { r with records := t.1, col_names := t.2.1, n_cols := t.2.2, header_trimmed := true }
  else r

/-- `CSVReader::read_csv` (single-producer chunk read): `notify_all`, then
`parser->next` — which returns immediately when `_eof` is already set, and
otherwise (source below `ITERATION_CHUNK_SIZE`) parses the whole source and
sets `_eof` — then `trim_header` when not yet trimmed, then `kill_all`. -/
def CSVReaderModel.read_csv (r : CSVReaderModel) : CSVReaderModel :=
  let r1 :=
    if r.eof then r
    else
      let ps := single_chunk_parse r.format.parse_flag r.format.ws_flag r.input
      { r with eof := true, records := r.records ++ ps.records, fields := ps.fields }
  r1.trim_header

/-- The `CSVReader` stream constructor for a small in-memory source: set the
column names if the format carries any, then `initial_read()` (one joined
`read_csv`). -/
def CSVReaderModel.mk' (input : List Char) (format : CSVFormat) : CSVReaderModel :=
  let r0 : CSVReaderModel :=
    { input := input, format := format, eof := false, records := [], fields := [],
      col_names := [], n_cols := 0, header_trimmed := false }
  let r1 := if format.col_names ≠ [] then r0.set_col_names format.col_names else r0
  r1.read_csv

/-- `CSVReader::read_row` in the drained-producer state (`kill_all` has run,
so the queue is not waitable, and `_eof` is set): an empty queue returns
false; a row whose length differs from `n_cols` is resolved by the
variable-column policy — `THROW` raises, `IGNORE_ROW` pops and retries,
`KEEP` falls through to the normal pop. -/
def read_row (n_cols : Nat) (policy : VariableColumnPolicy) :
    List CSVRowRec → Except String (Option (CSVRowRec × List CSVRowRec))
  | [] => .ok none
  | row :: rest =>
      if row.row_length ≠ n_cols ∧ policy ≠ .KEEP then
        if policy = .THROW then
          .error (if row.row_length < n_cols then "Line too short " else "Line too long ")
        else read_row n_cols policy rest
      else .ok (some (row, rest))

/-- Repeated `read_row` until it returns false, collecting the rows. -/
def drain (n_cols : Nat) (policy : VariableColumnPolicy) :
    Nat → List CSVRowRec → Except String (List CSVRowRec)
  | 0, _ => .ok []
  | fuel + 1, q =>
      match read_row n_cols policy q with
      | .error e => .error e
      | .ok none => .ok []
      | .ok (some (row, rest)) => (drain n_cols policy fuel rest).map (row :: ·)

/-- All rows a reader yields through `read_row`, as field-value strings. -/
def CSVReaderModel.read_all (r : CSVReaderModel) : Except String (List (List String)) :=
  (drain r.n_cols r.format.variable_column_policy (r.records.length + 1) r.records).map
    (List.map (row_values r.format.quote_char r.input r.fields))

/-- `CSVReader::begin()`: with an empty queue, run one joined `read_csv`;
a still-empty queue gives the end iterator (`none`), otherwise the iterator
holds the popped front row. -/
def CSVReaderModel.begin (r : CSVReaderModel) :
    Option (CSVRowRec × CSVReaderModel) :=
  if r.records = [] then
    let r' := r.read_csv
    match r'.records with
    | [] => none
    | row :: rest => some (row, { r' with records := rest })
  else
    match r.records with
    | [] => none
    | row :: rest => some (row, { r with records := rest })

/-! ## Format guessing (`calculate_score`, `_guess_format` in `stat.h`) -/

/-- `CSVGuessResult` from `format.h`. -/
structure CSVGuessResult where
  delim : Char
  header_row : Int
deriving DecidableEq, Repr

/-- `GuessScore` from `stat.h`. -/
structure GuessScore where
  score : Nat
  header : Nat
deriving DecidableEq, Repr

/-- A tally entry: row length, its frequency (`row_tally`), and the row
number where that length first occurred (`row_when`). -/
structure TallyEntry where
  size : Nat
  count : Nat
  when_row : Nat
deriving DecidableEq, Repr

/-- One `calculate_score` tally step for a row of length `sz` at index `i`:
increment the existing entry for `sz`, or record a new one remembering `i`. -/
def tally_bump : List TallyEntry → Nat → Nat → List TallyEntry
  | [], sz, i => [⟨sz, 1, i⟩]
  | e :: rest, sz, i =>
      if e.size = sz then { e with count := e.count + 1 } :: rest
      else e :: tally_bump rest sz i

/-- The tally loop of `calculate_score`: rows of nonzero length only, the
maps seeded with `row_tally = {{0, 0}}`, `row_when = {{0, 0}}`.  Entries are
kept in first-occurrence order (the C++ `unordered_map` iterates in an
unspecified order; the final-score fold is order-sensitive only on ties of
the product `size * count`). -/
def build_tally (rows : List CSVRowRec) : List TallyEntry :=
  (rows.enum).foldl
    (fun t p => if 0 < p.2.row_length then tally_bump t p.2.row_length p.1 else t)
    [⟨0, 0, 0⟩]

/-- The final-score fold of `calculate_score`: running
`(final_score, header_row)` updated whenever `size * count` strictly
exceeds the running score. -/
def score_fold : List TallyEntry → Nat × Nat → Nat × Nat
  | [], acc => acc
  | e :: rest, (fs, hd) =>
      score_fold rest (if fs < e.size * e.count then (e.size * e.count, e.when_row) else (fs, hd))

/-- `internals::calculate_score`: parse `head` with the candidate format,
tally row lengths, and fold for the best `size * count` product (the C++
`double` score is exact on these products). -/
def calculate_score (head : List Char) (format : CSVFormat) : GuessScore :=
  { score := (score_fold (build_tally
        (single_chunk_parse format.parse_flag format.ws_flag head).records) (0, 0)).1,
    header := (score_fold (build_tally
        (single_chunk_parse format.parse_flag format.ws_flag head).records) (0, 0)).2 }

/-- The candidate loop of `_guess_format`: running
`(max_score, current_delim, header)`, updated on a strictly larger score;
`format.delimiter(cand_delim)` can throw on a quote/delimiter overlap. -/
def guess_go (head : List Char) :
    List Char → Nat → Char → Nat → Except String (Nat × Char × Nat)
  | [], max_score, cd, hd => .ok (max_score, cd, hd)
  | cand :: rest, max_score, cd, hd =>
      match ({} : CSVFormat).delimiter cand with
      | .error e => .error e
      | .ok fmtc =>
          let result := calculate_score head fmtc
          if max_score < result.score then guess_go head rest result.score cand result.header
          else guess_go head rest max_score cd hd

/-- `internals::_guess_format`: fold over the candidates starting from
score 0, `delims[0]`, header 0. -/
def _guess_format (head : List Char) (delims : List Char) : Except String CSVGuessResult :=
  (guess_go head delims 0 (delims.headD (Char.ofNat 0)) 0).map
    (fun p => ⟨p.2.1, (p.2.2 : Int)⟩)

/-- `get_csv_head`: the first 500000 bytes of the file. -/
def get_csv_head (file : List Char) : List Char :=
  file.take 500000

/-- `alkaid::guess_format`: guess from the fixed-size file prefix. -/
def guess_format (file : List Char) (delims : List Char) : Except String CSVGuessResult :=
  _guess_format (get_csv_head file) delims

/-! A second reading, following the spec's words, for comparison with the
code: "for each candidate delimiter, parse a fixed-size file prefix and tally
row-length frequency; pick the delimiter whose most common row length ×
frequency product is maximal; the header row is the first row of that modal
length." -/

/-- Follows the spec's words: the modal tally entry — the row length of
greatest frequency (first such on ties). -/
def spec_modal_fold : List TallyEntry → TallyEntry → TallyEntry
  | [], acc => acc
  | e :: rest, acc => spec_modal_fold rest (if acc.count < e.count then e else acc)

/-- Follows the spec's words: a candidate's score is
(most common row length) × (that length's frequency), and its header row is
the first row of that modal length. -/
def spec_score (head : List Char) (format : CSVFormat) : GuessScore :=
  let rows := (single_chunk_parse format.parse_flag format.ws_flag head).records
  let m := spec_modal_fold (build_tally rows) ⟨0, 0, 0⟩
  ⟨m.size * m.count, m.when_row⟩

/-- Follows the spec's words: pick the delimiter with the maximal
mode-times-frequency product (first on ties, as in the code's fold). -/
def spec_guess_go (head : List Char) :
    List Char → Nat → Char → Nat → Nat × Char × Nat
  | [], max_score, cd, hd => (max_score, cd, hd)
  | cand :: rest, max_score, cd, hd =>
      let result := spec_score head { possible_delimiters := [cand] }
      if max_score < result.score then spec_guess_go head rest result.score cand result.header
      else spec_guess_go head rest max_score cd hd

/-- Follows the spec's words: the guessed format. -/
def spec_guess_format (head : List Char) (delims : List Char) : CSVGuessResult :=
  let p := spec_guess_go head delims 0 (delims.headD (Char.ofNat 0)) 0
  ⟨p.2.1, (p.2.2 : Int)⟩

/-! ## Theorems -/

/-- Sanity: `quote_escape_flag` agrees with the bit arithmetic
`flag & ~(QUOTE * quote_escape)` of the source. -/
theorem quote_escape_flag_val (flag : ParseFlags) (qe : Bool) :
    (quote_escape_flag flag qe).val = flag.val &&& (if qe then 4 else 7) := by
  cases flag <;> cases qe <;> rfl

/-- C9: `CSVFormat::header_row(r)` clears the stored column names, sets the
header index to `r`, leaves the delimiter set, quote character and trim
characters (and the quoting switch) unchanged, and forces the
variable-column policy to `KEEP` exactly when `r` is negative; `no_header()`
is `header_row(-1)`. -/
theorem header_row_spec (f : CSVFormat) (r : Int) :
    (f.header_row r).header = r ∧
    (f.header_row r).col_names = [] ∧
    (f.header_row r).possible_delimiters = f.possible_delimiters ∧
    (f.header_row r).quote_char = f.quote_char ∧
    (f.header_row r).trim_chars = f.trim_chars ∧
    (f.header_row r).no_quote = f.no_quote ∧
    (f.header_row r).variable_column_policy =
      (if r < 0 then .KEEP else f.variable_column_policy) ∧
    f.no_header = f.header_row (-1) := by
  unfold CSVFormat.header_row CSVFormat.no_header
  split <;> simp_all [CSVFormat.header_row]

/-- C1: `CSVReader::read_row` on a queue whose front row's field count
differs from `n_cols` resolves it by the variable-column policy: `THROW`
raises a runtime error ("Line too short" or "Line too long"), `IGNORE_ROW`
silently drops the row and continues — returning the next conforming row —
and `KEEP` returns the row as-is, with its field count unchanged. -/
theorem read_row_policy (row : CSVRowRec) (rest : List CSVRowRec) (n : Nat)
    (h : row.row_length ≠ n) :
    read_row n .THROW (row :: rest) =
      .error (if row.row_length < n then "Line too short " else "Line too long ") ∧
    read_row n .IGNORE_ROW (row :: rest) = read_row n .IGNORE_ROW rest ∧
    (∀ row2 rest2, row2.row_length = n →
      read_row n .IGNORE_ROW (row :: row2 :: rest2) = .ok (some (row2, rest2))) ∧
    read_row n .KEEP (row :: rest) = .ok (some (row, rest)) := by
  refine ⟨?_, ?_, ?_, ?_⟩
  · simp [read_row, h]
  · simp [read_row, h]
  · intro row2 rest2 h2
    simp [read_row, h, h2]
  · simp [read_row]

/-- Witness for `read_row_policy` at a two-field row against three columns. -/
theorem read_row_policy_witness :
    read_row 3 .THROW [⟨0, 0, 2⟩] = .error "Line too short " ∧
    read_row 3 .IGNORE_ROW [⟨0, 0, 2⟩] = read_row 3 .IGNORE_ROW [] ∧
    (∀ row2 rest2, row2.row_length = 3 →
      read_row 3 .IGNORE_ROW (⟨0, 0, 2⟩ :: row2 :: rest2) = .ok (some (row2, rest2))) ∧
    read_row 3 .KEEP [⟨0, 0, 2⟩] = .ok (some (⟨0, 0, 2⟩, [])) :=
  read_row_policy ⟨0, 0, 2⟩ [] 3 (by decide)

/-- C5: once the producer is done (`kill_all` has cleared `_is_waitable`) the
consumer cannot block: `ThreadSafeDeque::wait` returns immediately whenever
the deque is not waitable, and `CSVReader::read_row` on the drained queue
returns false rather than waiting. -/
theorem no_block_after_exhaustion (d : ThreadSafeDeque) (n : Nat)
    (p : VariableColumnPolicy) (h : d.is_waitable = false) :
    d.kill_all.wait_blocks = false ∧
    d.wait_blocks = false ∧
    read_row n p [] = .ok none := by
  refine ⟨?_, ?_, rfl⟩
  · simp [ThreadSafeDeque.kill_all, ThreadSafeDeque.wait_blocks]
  · simp [ThreadSafeDeque.wait_blocks, h]

/-- Witness for `no_block_after_exhaustion` on a concrete drained deque. -/
theorem no_block_after_exhaustion_witness :
    (ThreadSafeDeque.kill_all ⟨0, 100, false⟩).wait_blocks = false ∧
    (⟨0, 100, false⟩ : ThreadSafeDeque).wait_blocks = false ∧
    read_row 3 .IGNORE_ROW [] = .ok none :=
  no_block_after_exhaustion ⟨0, 100, false⟩ 3 .IGNORE_ROW rfl

/-- C6: a reader that has reached end of file with a drained row queue
yields no further rows: `begin()` runs one more (immediately returning)
`read_csv` and then returns the end iterator. -/
theorem begin_after_exhaustion (r : CSVReaderModel)
    (heof : r.eof = true) (hrec : r.records = []) :
    r.begin = none := by
  have hcsv : r.read_csv.records = [] := by
    unfold CSVReaderModel.read_csv
    simp only [heof, if_true]
    unfold CSVReaderModel.trim_header
    split
    · simp only [hrec, trim_header_loop]
    · exact hrec
  unfold CSVReaderModel.begin
  simp only [hrec, if_true]
  split
  · rfl
  · simp_all

/-- Witness for `begin_after_exhaustion` on a concrete exhausted reader. -/
theorem begin_after_exhaustion_witness :
    (CSVReaderModel.begin
      { input := "a,b\n1,2".toList, format := {}, eof := true, records := [],
        fields := [], col_names := ["a", "b"], n_cols := 2,
        header_trimmed := true }) = none :=
  begin_after_exhaustion _ rfl rfl

/-- A hit in the `col_pos` map points back at an occurrence of the queried
name: `build_col_pos names i q = some j` gives `names[j - i] = q`. -/
theorem build_col_pos_sound (names : List String) :
    ∀ (i : Nat) (q : String) (j : Nat),
      build_col_pos names i q = some j → i ≤ j ∧ names[j - i]? = some q := by
  induction names with
  | nil => intro i q j h; simp [build_col_pos] at h
  | cons n rest ih =>
    intro i q j h
    unfold build_col_pos at h
    cases hb : build_col_pos rest (i + 1) q with
    | some j' =>
      rw [hb] at h
      injection h with hjj
      subst hjj
      obtain ⟨h1, h2⟩ := ih (i + 1) q j' hb
      refine ⟨by omega, ?_⟩
      have hj : j' - i = (j' - (i + 1)) + 1 := by omega
      rw [hj, List.getElem?_cons_succ]
      exact h2
    | none =>
      rw [hb] at h
      by_cases hq : q = n
      · rw [if_pos hq] at h
        injection h with hij
        subst hij
        exact ⟨le_refl i, by simp [hq]⟩
      · rw [if_neg hq] at h
        cases h

/-- A name among the column names is found by the `col_pos` lookup. -/
theorem build_col_pos_mem (names : List String) :
    ∀ (i : Nat) (q : String), q ∈ names → (build_col_pos names i q).isSome := by
  induction names with
  | nil => intro i q h; cases h
  | cons n rest ih =>
    intro i q h
    unfold build_col_pos
    cases hb : build_col_pos rest (i + 1) q with
    | some j' => simp
    | none =>
      rcases List.mem_cons.mp h with h1 | h2
      · simp [h1]
      · have := ih (i + 1) q h2
        rw [hb] at this
        cases this

/-- A name not among the column names misses the `col_pos` lookup. -/
theorem build_col_pos_absent (names : List String) :
    ∀ (i : Nat) (q : String), q ∉ names → build_col_pos names i q = none := by
  induction names with
  | nil => intro i q _; rfl
  | cons n rest ih =>
    intro i q h
    unfold build_col_pos
    rw [ih (i + 1) q (fun hc => h (List.mem_cons_of_mem n hc))]
    rw [if_neg (fun hc => h (by rw [hc]; exact List.mem_cons_self n rest))]

/-- The linear scan finds the queried name (first occurrence) or reports
`CSV_NOT_FOUND`. -/
theorem reader_index_scan_spec (q : String) :
    ∀ (names : List String) (i : Nat),
      (q ∈ names → ∃ j : Nat, reader_index_scan q names i = ((i + j : Nat) : Int) ∧
        names[j]? = some q) ∧
      (q ∉ names → reader_index_scan q names i = CSV_NOT_FOUND) := by
  intro names
  induction names with
  | nil =>
    intro i
    exact ⟨fun h => absurd h (List.not_mem_nil q), fun _ => rfl⟩
  | cons n rest ih =>
    intro i
    constructor
    · intro h
      unfold reader_index_scan
      by_cases hn : n = q
      · exact ⟨0, by simp [hn]⟩
      · have hq : q ∈ rest := by
          rcases List.mem_cons.mp h with h1 | h2
          · exact absurd h1.symm hn
          · exact h2
        obtain ⟨j, hj1, hj2⟩ := (ih (i + 1)).1 hq
        refine ⟨j + 1, ?_, by simpa using hj2⟩
        rw [if_neg hn, hj1]
        congr 1
        omega
    · intro h
      unfold reader_index_scan
      rw [if_neg (fun hc => h (by rw [hc]; exact List.mem_cons_self q rest))]
      exact (ih (i + 1)).2 (fun hc => h (List.mem_cons_of_mem n hc))

/-- C8: column lookup by name never throws: when the name is among the
column names, `ColNames::index_of` and `CSVReader::index_of` return an index
holding that name (the map lookup and the linear scan respectively, both
total functions), and otherwise both return the sentinel
`CSV_NOT_FOUND = -1`. -/
theorem index_of_spec (names : List String) (q : String) :
    (q ∈ names →
      0 ≤ (ColNames.set_col_names names).index_of q ∧
      names[((ColNames.set_col_names names).index_of q).toNat]? = some q) ∧
    (q ∉ names → (ColNames.set_col_names names).index_of q = CSV_NOT_FOUND) ∧
    (q ∈ names →
      0 ≤ reader_index_of names q ∧
      names[(reader_index_of names q).toNat]? = some q) ∧
    (q ∉ names → reader_index_of names q = CSV_NOT_FOUND) ∧
    CSV_NOT_FOUND = -1 := by
  refine ⟨?_, ?_, ?_, ?_, rfl⟩
  · intro h
    have hs := build_col_pos_mem names 0 q h
    cases hb : build_col_pos names 0 q with
    | none => rw [hb] at hs; cases hs
    | some j =>
      obtain ⟨_, h2⟩ := build_col_pos_sound names 0 q j hb
      unfold ColNames.index_of ColNames.set_col_names
      simp only [hb]
      simpa using h2
  · intro h
    unfold ColNames.index_of ColNames.set_col_names
    simp only [build_col_pos_absent names 0 q h]
  · intro h
    obtain ⟨j, hj1, hj2⟩ := (reader_index_scan_spec q names 0).1 h
    unfold reader_index_of
    rw [hj1]
    simpa using hj2
  · intro h
    unfold reader_index_of
    exact (reader_index_scan_spec q names 0).2 h

/-- Witness for `index_of_spec`: a present and an absent name over columns
`[a, b]`. -/
theorem index_of_spec_witness :
    (0 ≤ (ColNames.set_col_names ["a", "b"]).index_of "b" ∧
      ["a", "b"][((ColNames.set_col_names ["a", "b"]).index_of "b").toNat]? = some "b") ∧
    (ColNames.set_col_names ["a", "b"]).index_of "z" = CSV_NOT_FOUND ∧
    (0 ≤ reader_index_of ["a", "b"] "b" ∧
      ["a", "b"][(reader_index_of ["a", "b"] "b").toNat]? = some "b") ∧
    reader_index_of ["a", "b"] "z" = CSV_NOT_FOUND :=
  ⟨(index_of_spec ["a", "b"] "b").1 (by decide),
   (index_of_spec ["a", "b"] "z").2.1 (by decide),
   (index_of_spec ["a", "b"] "b").2.2.1 (by decide),
   (index_of_spec ["a", "b"] "z").2.2.2.1 (by decide)⟩

/-- Closed form of the quote overwrite in `make_parse_flags2` for a quote
character in the valid (nonnegative) signed-char range. -/
theorem make_parse_flags2_eq (d q : Int) (hq1 : 0 ≤ q) (hq2 : q < 128)
    (idx : Fin 256) :
    make_parse_flags2 d q idx =
      if (idx.val : Int) - 128 = q then .QUOTE
      else make_parse_flags_entry d ((idx.val : Int) - 128) := by
  unfold make_parse_flags2 make_parse_flags
  rw [Function.update_apply]
  have hval := idx.isLt
  have hiff : (idx = (⟨(q + 128).toNat % 256, by omega⟩ : Fin 256)) ↔
      (idx.val : Int) - 128 = q := by
    rw [Fin.ext_iff]
    show idx.val = (q + 128).toNat % 256 ↔ _
    omega
  by_cases h : (idx.val : Int) - 128 = q
  · rw [if_pos (hiff.mpr h), if_pos h]
  · rw [if_neg (fun hc => h (hiff.mp hc)), if_neg h]

/-- C7: the byte-classification table built from delimiter `d` and quote
character `q` is a total map over all 256 byte slots (indexed by the signed
char value `ch = idx - 128`) assigning `DELIMITER` to `d`, `NEWLINE` to both
CR (13) and LF (10), `QUOTE` to `q` exactly when quoting is enabled (the
quoteless table classifies `q` as `NOT_SPECIAL`), and `NOT_SPECIAL` to every
other byte.  The distinctness hypotheses are forced by the claim's
assignment being well defined. -/
theorem make_parse_flags_spec (d q : Int) (idx : Fin 256)
    (_hd1 : -128 ≤ d) (_hd2 : d < 128) (hq1 : 0 ≤ q) (hq2 : q < 128)
    (hdr : d ≠ 13) (hdn : d ≠ 10) (hqd : q ≠ d) (hqr : q ≠ 13) (hqn : q ≠ 10) :
    ((idx.val : Int) - 128 = d → make_parse_flags2 d q idx = .DELIMITER) ∧
    ((idx.val : Int) - 128 = 13 ∨ (idx.val : Int) - 128 = 10 →
      make_parse_flags2 d q idx = .NEWLINE) ∧
    ((idx.val : Int) - 128 = q → make_parse_flags2 d q idx = .QUOTE) ∧
    ((idx.val : Int) - 128 ≠ d → (idx.val : Int) - 128 ≠ 13 →
      (idx.val : Int) - 128 ≠ 10 → (idx.val : Int) - 128 ≠ q →
      make_parse_flags2 d q idx = .NOT_SPECIAL) ∧
    ((idx.val : Int) - 128 = q → make_parse_flags d idx = .NOT_SPECIAL) := by
  rw [make_parse_flags2_eq d q hq1 hq2 idx]
  unfold make_parse_flags make_parse_flags_entry
  refine ⟨?_, ?_, ?_, ?_, ?_⟩
  · intro h
    rw [if_neg (by omega), if_pos h]
  · intro h
    rw [if_neg (by omega), if_neg (by omega), if_pos (by omega)]
  · intro h
    rw [if_pos h]
  · intro h1 h2 h3 h4
    rw [if_neg h4, if_neg h1, if_neg (by omega)]
  · intro h
    rw [if_neg (by omega), if_neg (by omega)]

/-- Witness for `make_parse_flags_spec` with delimiter `,` (44), quote `"`
(34), at the table slot of the delimiter byte. -/
theorem make_parse_flags_spec_witness :
    ((((172 : Fin 256)).val : Int) - 128 = 44 →
      make_parse_flags2 44 34 172 = .DELIMITER) ∧
    ((((172 : Fin 256)).val : Int) - 128 = 13 ∨ (((172 : Fin 256)).val : Int) - 128 = 10 →
      make_parse_flags2 44 34 172 = .NEWLINE) ∧
    ((((172 : Fin 256)).val : Int) - 128 = 34 → make_parse_flags2 44 34 172 = .QUOTE) ∧
    ((((172 : Fin 256)).val : Int) - 128 ≠ 44 → (((172 : Fin 256)).val : Int) - 128 ≠ 13 →
      (((172 : Fin 256)).val : Int) - 128 ≠ 10 → (((172 : Fin 256)).val : Int) - 128 ≠ 34 →
      make_parse_flags2 44 34 172 = .NOT_SPECIAL) ∧
    ((((172 : Fin 256)).val : Int) - 128 = 34 → make_parse_flags 44 172 = .NOT_SPECIAL) :=
  make_parse_flags_spec 44 34 172 (by decide) (by decide) (by decide) (by decide)
    (by decide) (by decide) (by decide) (by decide) (by decide)

/-- `List.contains` agrees with membership on characters. -/
theorem list_contains_iff (l : List Char) (c : Char) : l.contains c = true ↔ c ∈ l := by
  rw [List.contains_iff_exists_mem_beq]
  constructor
  · rintro ⟨b, hb, he⟩
    rw [eq_of_beq he]
    exact hb
  · intro h
    exact ⟨c, h, by simp⟩

/-- The boolean overlap test of the source agrees with the claim's overlap
condition. -/
theorem has_char_overlap_iff (f : CSVFormat) :
    f.has_char_overlap = true ↔ char_overlap_prop f := by
  unfold CSVFormat.has_char_overlap char_overlap_prop
  simp only [Bool.or_eq_true, List.any_eq_true, list_contains_iff, beq_iff_eq]
  constructor
  · rintro ((⟨x, hx1, hx2⟩ | h) | h)
    · exact Or.inr (Or.inr ⟨x, hx1, hx2⟩)
    · exact Or.inl h
    · exact Or.inr (Or.inl h)
  · rintro (h | h | ⟨x, hx1, hx2⟩)
    · exact Or.inl (Or.inr h)
    · exact Or.inr h
    · exact Or.inl (Or.inl ⟨x, hx1, hx2⟩)

/-- C10: each of the four format setters — `delimiter(char)`,
`delimiter(vector)`, `quote(char)` and `trim` — applies its update and then
throws exactly when, on the updated format, the quote character occurs among
the possible delimiters or the trim characters, or a delimiter is also a
trim character; with no such overlap the updated format is returned
normally. -/
theorem format_setters_overlap (f : CSVFormat) (d : Char) (ds : List Char)
    (q : Char) (ws : List Char) :
    (¬ char_overlap_prop { f with possible_delimiters := [d] } →
      f.delimiter d = .ok { f with possible_delimiters := [d] }) ∧
    (char_overlap_prop { f with possible_delimiters := [d] } →
      ∃ e, f.delimiter d = .error e) ∧
    (¬ char_overlap_prop { f with possible_delimiters := ds } →
      f.delimiter_list ds = .ok { f with possible_delimiters := ds }) ∧
    (char_overlap_prop { f with possible_delimiters := ds } →
      ∃ e, f.delimiter_list ds = .error e) ∧
    (¬ char_overlap_prop { f with no_quote := false, quote_char := q } →
      f.quote q = .ok { f with no_quote := false, quote_char := q }) ∧
    (char_overlap_prop { f with no_quote := false, quote_char := q } →
      ∃ e, f.quote q = .error e) ∧
    (¬ char_overlap_prop { f with trim_chars := ws } →
      f.trim ws = .ok { f with trim_chars := ws }) ∧
    (char_overlap_prop { f with trim_chars := ws } →
      ∃ e, f.trim ws = .error e) := by
  have key : ∀ g : CSVFormat,
      (¬ char_overlap_prop g → g.assert_no_char_overlap = .ok g) ∧
      (char_overlap_prop g → ∃ e, g.assert_no_char_overlap = .error e) := by
    intro g
    unfold CSVFormat.assert_no_char_overlap
    constructor
    · intro h
      rw [if_neg (fun hc => h ((has_char_overlap_iff g).mp hc))]
    · intro h
      exact ⟨_, by rw [if_pos ((has_char_overlap_iff g).mpr h)]⟩
  exact ⟨(key _).1, (key _).2, (key _).1, (key _).2, (key _).1, (key _).2,
    (key _).1, (key _).2⟩

/-- Witness for `format_setters_overlap` on the default format: a fresh
delimiter, delimiter list, and trim set succeed; setting the quote character
to the active delimiter `,` fails. -/
theorem format_setters_overlap_witness :
    ({} : CSVFormat).delimiter ';' =
      .ok { ({} : CSVFormat) with possible_delimiters := [';'] } ∧
    ({} : CSVFormat).delimiter_list [';', '|'] =
      .ok { ({} : CSVFormat) with possible_delimiters := [';', '|'] } ∧
    (∃ e, ({} : CSVFormat).quote ',' = .error e) ∧
    ({} : CSVFormat).trim [' '] =
      .ok { ({} : CSVFormat) with trim_chars := [' '] } :=
  ⟨(format_setters_overlap {} ';' [';', '|'] ',' [' ']).1 (by decide),
   (format_setters_overlap {} ';' [';', '|'] ',' [' ']).2.2.1 (by decide),
   (format_setters_overlap {} ';' [';', '|'] ',' [' ']).2.2.2.2.2.1 (by decide),
   (format_setters_overlap {} ';' [';', '|'] ',' [' ']).2.2.2.2.2.2.1 (by decide)⟩

/-- C3: parsing `a,b,c\n1,2,3\n4,5,6` with a reader whose header row is
row 0 (the default format) yields column names `[a, b, c]` and exactly the
two rows `[1, 2, 3]` and `[4, 5, 6]`. -/
theorem parse_simple_csv :
    (CSVReaderModel.mk' ("a,b,c\n1,2,3\n4,5,6".toList) {}).format.header = 0 ∧
    (CSVReaderModel.mk' ("a,b,c\n1,2,3\n4,5,6".toList) {}).col_names = ["a", "b", "c"] ∧
    (CSVReaderModel.mk' ("a,b,c\n1,2,3\n4,5,6".toList) {}).read_all =
      .ok [["1", "2", "3"], ["4", "5", "6"]] := by decide

/-- C4: parsing the quoted field `"He said ""hi"""` records a single field
span that is only flagged (`has_double_quote`), its raw bytes still holding
the doubled quotes; the value produced when the field is requested has the
doubled quotes decoded, `He said "hi"`. -/
theorem quoted_field_unescape :
    (single_chunk_parse ({} : CSVFormat).parse_flag ({} : CSVFormat).ws_flag
      ("\"He said \"\"hi\"\"\"".toList)).records = [⟨0, 0, 1⟩] ∧
    (single_chunk_parse ({} : CSVFormat).parse_flag ({} : CSVFormat).ws_flag
      ("\"He said \"\"hi\"\"\"".toList)).fields = [⟨1, 14, true⟩] ∧
    raw_field_chars ("\"He said \"\"hi\"\"\"".toList) ⟨0, 0, 1⟩ ⟨1, 14, true⟩ =
      ("He said \"\"hi\"\"".toList) ∧
    field_value '"' ("\"He said \"\"hi\"\"\"".toList)
      (single_chunk_parse ({} : CSVFormat).parse_flag ({} : CSVFormat).ws_flag
        ("\"He said \"\"hi\"\"\"".toList)).fields ⟨0, 0, 1⟩ 0 =
      some ("He said \"hi\"".toList) := by decide

/-- C2 counterexample: on `a,b\nc,d\nd,e\nf|g|h|i\nj|k|l|m\n` with
candidates `,` and `|`, the code picks `|` with header row 3 (its best
product is 4 × 2 = 8, beating 2 × 3 = 6 for `,`), while the claim's rule —
modal row length times its frequency — picks `,` with header row 0
(mode 2 × 3 = 6 for `,` beats mode 1 × 3 = 3 for `|`).  All products
involved are distinct, so no tie-breaking of the unordered tally is at
play. -/
theorem guess_format_counterexample :
    guess_format ("a,b\nc,d\nd,e\nf|g|h|i\nj|k|l|m\n".toList) [',', '|'] =
      .ok ⟨'|', 3⟩ ∧
    spec_guess_format ("a,b\nc,d\nd,e\nf|g|h|i\nj|k|l|m\n".toList) [',', '|'] =
      ⟨',', 0⟩ ∧
    (⟨'|', 3⟩ : CSVGuessResult) ≠ ⟨',', 0⟩ := by decide

/-- The first component of the final-score fold is the maximum of the
running score and the products `size * count`. -/
theorem score_fold_fst (l : List TallyEntry) :
    ∀ fs hd, (score_fold l (fs, hd)).1 =
      l.foldl (fun m e => Nat.max m (e.size * e.count)) fs := by
  induction l with
  | nil => intro fs hd; rfl
  | cons e rest ih =>
    intro fs hd
    show (score_fold rest _).1 = _
    simp only [List.foldl_cons]
    by_cases h : fs < e.size * e.count
    · rw [if_pos h, ih]
      congr 1
      exact (Nat.max_eq_right (Nat.le_of_lt h)).symm
    · rw [if_neg h, ih]
      congr 1
      exact (Nat.max_eq_left (Nat.le_of_not_lt h)).symm

/-- The final-score fold never updates when every product is bounded by the
running score. -/
theorem score_fold_const (l : List TallyEntry) :
    ∀ fs hd, (∀ e ∈ l, e.size * e.count ≤ fs) → score_fold l (fs, hd) = (fs, hd) := by
  induction l with
  | nil => intro fs hd _; rfl
  | cons e rest ih =>
    intro fs hd h
    show score_fold rest _ = _
    rw [if_neg (Nat.not_lt.mpr (h e (List.mem_cons_self e rest)))]
    exact ih fs hd (fun x hx => h x (List.mem_cons_of_mem e hx))

/-- When an entry `m` attains the strictly largest product (every entry of
maximal product agrees with `m` on its first-occurrence row), the fold
returns `m`'s product and row. -/
theorem score_fold_argmax (l : List TallyEntry) (m : TallyEntry) :
    ∀ fs hd, m ∈ l → fs < m.size * m.count →
      (∀ e ∈ l, e.size * e.count ≤ m.size * m.count) →
      (∀ e ∈ l, e.size * e.count = m.size * m.count → e.when_row = m.when_row) →
      score_fold l (fs, hd) = (m.size * m.count, m.when_row) := by
  induction l with
  | nil => intro fs hd hm; cases hm
  | cons a rest ih =>
    intro fs hd hm hfs hle huniq
    show score_fold rest _ = _
    by_cases hpa : a.size * a.count = m.size * m.count
    · rw [if_pos (by omega)]
      rw [huniq a (List.mem_cons_self a rest) hpa, hpa]
      exact score_fold_const rest _ _
        (fun x hx => hle x (List.mem_cons_of_mem a hx))
    · have hlt : a.size * a.count < m.size * m.count :=
        Nat.lt_of_le_of_ne (hle a (List.mem_cons_self a rest)) hpa
      have hmrest : m ∈ rest := by
        rcases List.mem_cons.mp hm with h1 | h2
        · exact absurd (by rw [h1]) hpa
        · exact h2
      by_cases hup : fs < a.size * a.count
      · rw [if_pos hup]
        exact ih _ _ hmrest hlt (fun x hx => hle x (List.mem_cons_of_mem a hx))
          (fun x hx => huniq x (List.mem_cons_of_mem a hx))
      · rw [if_neg hup]
        exact ih _ _ hmrest hfs (fun x hx => hle x (List.mem_cons_of_mem a hx))
          (fun x hx => huniq x (List.mem_cons_of_mem a hx))

/-- `CSVFormat::delimiter` on the default format succeeds for any character
other than the default quote `"`. -/
theorem delimiter_default_ok (cand : Char) (h : cand ≠ '"') :
    ({} : CSVFormat).delimiter cand = .ok { possible_delimiters := [cand] } := by
  unfold CSVFormat.delimiter CSVFormat.assert_no_char_overlap CSVFormat.has_char_overlap
  have h2 : ¬ ('"' = cand) := fun hc => h hc.symm
  simp [h, h2]

/-- The candidate fold of `_guess_format` never updates when every
candidate's score is bounded by the running maximum. -/
theorem guess_go_const (head : List Char) (l : List Char) :
    ∀ ms cd hd, (∀ d ∈ l, d ≠ '"') →
      (∀ d ∈ l, (calculate_score head { possible_delimiters := [d] }).score ≤ ms) →
      guess_go head l ms cd hd = .ok (ms, cd, hd) := by
  induction l with
  | nil => intro ms cd hd _ _; rfl
  | cons a rest ih =>
    intro ms cd hd hq hle
    unfold guess_go
    rw [delimiter_default_ok a (hq a (List.mem_cons_self a rest))]
    simp only
    rw [if_neg (Nat.not_lt.mpr (hle a (List.mem_cons_self a rest)))]
    exact ih ms cd hd (fun x hx => hq x (List.mem_cons_of_mem a hx))
      (fun x hx => hle x (List.mem_cons_of_mem a hx))

/-- When one candidate has the strictly best score, the fold of
`_guess_format` returns it along with its header. -/
theorem guess_go_argmax (head : List Char) (l : List Char) (best : Char) :
    ∀ ms cd hd, best ∈ l → (∀ d ∈ l, d ≠ '"') →
      ms < (calculate_score head { possible_delimiters := [best] }).score →
      (∀ d ∈ l, (calculate_score head { possible_delimiters := [d] }).score ≤
        (calculate_score head { possible_delimiters := [best] }).score) →
      (∀ d ∈ l, (calculate_score head { possible_delimiters := [d] }).score =
        (calculate_score head { possible_delimiters := [best] }).score → d = best) →
      guess_go head l ms cd hd =
        .ok ((calculate_score head { possible_delimiters := [best] }).score, best,
          (calculate_score head { possible_delimiters := [best] }).header) := by
  induction l with
  | nil => intro ms cd hd hm; cases hm
  | cons a rest ih =>
    intro ms cd hd hm hq hms hle huniq
    unfold guess_go
    rw [delimiter_default_ok a (hq a (List.mem_cons_self a rest))]
    simp only
    by_cases hpa : (calculate_score head { possible_delimiters := [a] }).score =
        (calculate_score head { possible_delimiters := [best] }).score
    · have ha : a = best := huniq a (List.mem_cons_self a rest) hpa
      subst ha
      rw [if_pos hms]
      exact guess_go_const head rest _ a _
        (fun x hx => hq x (List.mem_cons_of_mem a hx))
        (fun x hx => hle x (List.mem_cons_of_mem a hx))
    · have hlt : (calculate_score head { possible_delimiters := [a] }).score <
          (calculate_score head { possible_delimiters := [best] }).score :=
        Nat.lt_of_le_of_ne (hle a (List.mem_cons_self a rest)) hpa
      have hbrest : best ∈ rest := by
        rcases List.mem_cons.mp hm with h1 | h2
        · exact absurd (by rw [← h1]) hpa
        · exact h2
      by_cases hup : ms < (calculate_score head { possible_delimiters := [a] }).score
      · rw [if_pos hup]
        exact ih _ _ _ hbrest (fun x hx => hq x (List.mem_cons_of_mem a hx)) hlt
          (fun x hx => hle x (List.mem_cons_of_mem a hx))
          (fun x hx => huniq x (List.mem_cons_of_mem a hx))
      · rw [if_neg hup]
        exact ih _ _ _ hbrest (fun x hx => hq x (List.mem_cons_of_mem a hx)) hms
          (fun x hx => hle x (List.mem_cons_of_mem a hx))
          (fun x hx => huniq x (List.mem_cons_of_mem a hx))

/-- C2 (amended): for each candidate delimiter the same fixed-size prefix is
parsed and row lengths tallied, but a candidate's final score is the maximum
over the tallied row lengths of (length × frequency) — not (modal length) ×
(its frequency) — with the header reported as the first row of the length
attaining that maximal product; among the candidates, the one of strictly
greatest score wins, carrying its header (cast to `int`). -/
theorem guess_format_amended (head : List Char) (fmt : CSVFormat)
    (delims : List Char) (m : TallyEntry) (best : Char)
    (hm : m ∈ build_tally (single_chunk_parse fmt.parse_flag fmt.ws_flag head).records)
    (hmpos : 0 < m.size * m.count)
    (hmle : ∀ e ∈ build_tally (single_chunk_parse fmt.parse_flag fmt.ws_flag head).records,
      e.size * e.count ≤ m.size * m.count)
    (hmuniq : ∀ e ∈ build_tally (single_chunk_parse fmt.parse_flag fmt.ws_flag head).records,
      e.size * e.count = m.size * m.count → e.when_row = m.when_row)
    (hbmem : best ∈ delims)
    (hbq : ∀ d ∈ delims, d ≠ '"')
    (hbpos : 0 < (calculate_score head { possible_delimiters := [best] }).score)
    (hble : ∀ d ∈ delims, (calculate_score head { possible_delimiters := [d] }).score ≤
      (calculate_score head { possible_delimiters := [best] }).score)
    (hbuniq : ∀ d ∈ delims, (calculate_score head { possible_delimiters := [d] }).score =
      (calculate_score head { possible_delimiters := [best] }).score → d = best) :
    (calculate_score head fmt).score =
      ((build_tally (single_chunk_parse fmt.parse_flag fmt.ws_flag head).records).map
        (fun e => e.size * e.count)).foldl Nat.max 0 ∧
    calculate_score head fmt = ⟨m.size * m.count, m.when_row⟩ ∧
    _guess_format head delims =
      .ok ⟨best, ((calculate_score head { possible_delimiters := [best] }).header : Int)⟩ := by
  refine ⟨?_, ?_, ?_⟩
  · unfold calculate_score
    rw [score_fold_fst]
    rw [List.foldl_map]
  · unfold calculate_score
    rw [score_fold_argmax _ m 0 0 hm hmpos hmle hmuniq]
  · unfold _guess_format
    rw [guess_go_argmax head delims best 0 (delims.headD (Char.ofNat 0)) 0
      hbmem hbq hbpos hble hbuniq]
    rfl

/-- Witness for `guess_format_amended` on the counterexample input: for
delimiter `|` the tally entry of row length 4 (count 2, first row 3) is the
strict product argmax, and `|` is the strictly best candidate. -/
theorem guess_format_amended_witness :
    (calculate_score ("a,b\nc,d\nd,e\nf|g|h|i\nj|k|l|m\n".toList)
        { possible_delimiters := ['|'] }).score =
      ((build_tally (single_chunk_parse
          ({ possible_delimiters := ['|'] } : CSVFormat).parse_flag
          ({ possible_delimiters := ['|'] } : CSVFormat).ws_flag
          ("a,b\nc,d\nd,e\nf|g|h|i\nj|k|l|m\n".toList)).records).map
        (fun e => e.size * e.count)).foldl Nat.max 0 ∧
    calculate_score ("a,b\nc,d\nd,e\nf|g|h|i\nj|k|l|m\n".toList)
        { possible_delimiters := ['|'] } = ⟨4 * 2, 3⟩ ∧
    _guess_format ("a,b\nc,d\nd,e\nf|g|h|i\nj|k|l|m\n".toList) [',', '|'] =
      .ok ⟨'|', ((calculate_score ("a,b\nc,d\nd,e\nf|g|h|i\nj|k|l|m\n".toList)
        { possible_delimiters := ['|'] }).header : Int)⟩ :=
  guess_format_amended ("a,b\nc,d\nd,e\nf|g|h|i\nj|k|l|m\n".toList)
    { possible_delimiters := ['|'] } [',', '|'] ⟨4, 2, 3⟩ '|'
    (by decide) (by decide) (by decide) (by decide) (by decide) (by decide)
    (by decide) (by decide) (by decide)

end Alkaid
